import Mathlib

/-!
Verification development for the keramik operator core.

We shallowly embed the config-resolution layer (`network/ceramic.rs`), the
peer-discovery address filtering (`network/ipfs_rpc.rs`), the simulation
reconcile loop (`simulation/controller.rs`) and the network reconcile
ordering (`network/stub.rs` together with the spec of the network control
loop) as executable Lean definitions, and prove the spec-level properties
about them.
-/

namespace Keramik

open List

/-! ## Peer discovery: multiaddrs and `HttpRpcClient::peer_info`

The `multiaddr` crate is external; we embed a multiaddr as the list of its
protocol segments, which is all `peer_info` inspects.  The base58/multihash
decoding of the peer id is also external library code; we embed the decoded
identity protocol segment as `MultiaddrProto.p2p id`, carrying the peer id
it was decoded from (a decode failure is a separate library error path that
none of the claims concern).  Serialization of the resulting multiaddrs back
to strings is likewise external and injective, so `p2p_addrs` keeps the
structured form.
-/

/-- One protocol segment of a multiaddr. -/
inductive MultiaddrProto where
  /-- An IPv4 component given by its four octets. -/
  | ip4 (a b c d : Nat)
  /-- A TCP transport segment. -/
  | tcp (port : Nat)
  /-- A UDP transport segment. -/
  | udp (port : Nat)
  /-- A QUIC transport segment. -/
  | quic
  /-- The identity (p2p) segment, carrying the decoded peer identity. -/
  | p2p (id : String)
  deriving DecidableEq, Repr

/-- A multiaddr is a sequence of protocol segments. -/
abbrev Multiaddr := List MultiaddrProto

/-- `Ipv4Addr::is_loopback` from the Rust standard library: the 127.0.0.0/8
block, i.e. the first octet is 127. -/
def ip4IsLoopback (a _b _c _d : Nat) : Bool := a == 127

/-- The predicate applied to each segment inside `peer_info`'s filter
(`ipfs_rpc.rs` lines 61-64): only a non-loopback IPv4 segment counts,
every other segment yields `false`. -/
def protoIsNonLoopbackIp4 : MultiaddrProto → Bool
  | .ip4 a b c d => !ip4IsLoopback a b c d
  | _ => false

/-- `keramik_common::peer_info::IpfsPeerInfo` (fields as used by
`peer_info`). -/
structure IpfsPeerInfo where
  peer_id : String
  ipfs_rpc_addr : String
  p2p_addrs : List Multiaddr
  deriving DecidableEq, Repr

/-- `HttpRpcClient::peer_info` (`ipfs_rpc.rs` lines 31-84) after the HTTP
response has been received and decoded into `id` and `addresses`: filter the
addresses with `protoIsNonLoopbackIp4` applied through `List.any`, append
the decoded identity segment to each retained address, and fail when the
retained list is empty. -/
def peerInfo (ipfs_rpc_addr : String) (id : String) (addresses : List Multiaddr) :
    Except String IpfsPeerInfo :=
  let p2p_proto : MultiaddrProto := .p2p id
  let p2p_addrs :=
    (addresses.filter fun addr => addr.any protoIsNonLoopbackIp4).map
      fun addr => addr ++ [p2p_proto]
  if !p2p_addrs.isEmpty then
    .ok { peer_id := id, ipfs_rpc_addr := ipfs_rpc_addr, p2p_addrs := p2p_addrs }
  else
    .error ("peer " ++ ipfs_rpc_addr ++ " does not have any valid non loopback addresses")

/-- C1: the filter in `peer_info` checks only for a non-loopback IPv4
segment and never requires a tcp or quic transport segment, contradicting
both the claim and the code's own comment ("Address must have both a non
loopback ip4 address and a tcp or quic endpoint").  Evaluated at the failing
input: an identity response whose only address is `/ip4/8.8.8.8` (routable
IPv4, no transport segment) is retained and the call succeeds, where the
claim requires the address to be dropped and the call to fail with the
"no valid address" error. -/
theorem peer_info_retains_address_without_transport :
    peerInfo "http://peer0:5001" "peerid" [[.ip4 8 8 8 8]] =
      .ok { peer_id := "peerid"
            ipfs_rpc_addr := "http://peer0:5001"
            p2p_addrs := [[.ip4 8 8 8 8, .p2p "peerid"]] } := by
  rfl

/-! ## Config resolution: `network/ceramic.rs`

`Quantity` is the k8s resource quantity (an opaque string).  Rust `Option`
becomes Lean `Option`; a Rust panic (`.unwrap()` on `None`) is embedded as
an `Option.none` result of the whole function, while a *typed* error would
be an `Except` — the resolution functions below have no `Except` channel,
mirroring the source, where the failure is an unrecoverable abort. -/

/-- `k8s_openapi` `Quantity`: an opaque quantity string. -/
structure Quantity where
  value : String
  deriving DecidableEq, Repr

/-- `ResourceLimitsConfig` (`network/resource_limits.rs`): fully resolved
cpu/memory/storage quantities. -/
structure ResourceLimitsConfig where
  cpu : Quantity
  memory : Quantity
  storage : Quantity
  deriving DecidableEq, Repr

/-- `ResourceLimitsSpec` (`network/spec.rs`): optional quantities. -/
structure ResourceLimitsSpec where
  cpu : Option Quantity
  memory : Option Quantity
  storage : Option Quantity
  deriving DecidableEq, Repr

/-- Modelled from the spec: `ResourceLimitsConfig::from_spec` lives in
`network/resource_limits.rs`, which is not under `src/`; per spec §4.1 the
resolver "coalesces each optional field against a static default". -/
def ResourceLimitsConfig.from_spec (spec : Option ResourceLimitsSpec)
    (defaults : ResourceLimitsConfig) : ResourceLimitsConfig :=
  match spec with
  | none => defaults
  | some s =>
    { cpu := s.cpu.getD defaults.cpu
      memory := s.memory.getD defaults.memory
      storage := s.storage.getD defaults.storage }

/-- `DB_TYPE_POSTGRES` from `network/controller.rs` (not under `src/`); the
spec §3 gives the database backend tag values as `sqlite|postgres`. -/
def DB_TYPE_POSTGRES : String := "postgres"

/-- The sqlite database backend tag (spec §3: `sqlite|postgres`). -/
def DB_TYPE_SQLITE : String := "sqlite"

/-- `INIT_CONFIG_MAP_NAME` from `network/controller.rs` (not under `src/`);
only its identity as a fixed default name matters to the claims. -/
def INIT_CONFIG_MAP_NAME : String := "ceramic-init"

/-- `CERAMIC_POSTGRES_SERVICE_NAME` from `network/controller.rs` (not under
`src/`); only its identity as a fixed name matters to the claims. -/
def CERAMIC_POSTGRES_SERVICE_NAME : String := "ceramic-postgres"

/-- `CERAMIC_SERVICE_IPFS_PORT` from `network/controller.rs` (not under
`src/`); the IPFS RPC port, a fixed constant whose exact value is immaterial
to the claims. -/
def CERAMIC_SERVICE_IPFS_PORT : Nat := 5001

/-- `CeramicPostgres` (`ceramic.rs` lines 144-151): possibly-unresolved
postgres credentials inside a resolved config. -/
structure CeramicPostgres where
  db_name : Option String
  user_name : Option String
  password : Option String
  deriving DecidableEq, Repr

/-- `RustIpfsConfig` (`ceramic.rs` lines 276-282).  The `env` field is a
`HashMap<String, String>` in the source; we embed it as an association list
whose keys are pairwise distinct and whose order is the (arbitrary)
iteration order of the map. -/
structure RustIpfsConfig where
  image : String
  image_pull_policy : String
  resource_limits : ResourceLimitsConfig
  rust_log : String
  env : Option (List (String × String))
  deriving DecidableEq, Repr

/-- `RustIpfsConfig::default` (`ceramic.rs` lines 284-298). -/
def RustIpfsConfig.default : RustIpfsConfig :=
  { image := "public.ecr.aws/r5b3e0r5/3box/ceramic-one:latest"
    image_pull_policy := "Always"
    resource_limits :=
      { cpu := ⟨"250m"⟩, memory := ⟨"512Mi"⟩, storage := ⟨"1Gi"⟩ }
    rust_log := "info,ceramic_one=debug,tracing_actix_web=debug,quinn_proto=error"
    env := none }

/-- `GoIpfsConfig` (`ceramic.rs` lines 315-320). -/
structure GoIpfsConfig where
  image : String
  image_pull_policy : String
  resource_limits : ResourceLimitsConfig
  commands : List String
  deriving DecidableEq, Repr

/-- `GoIpfsConfig::default` (`ceramic.rs` lines 321-334). -/
def GoIpfsConfig.default : GoIpfsConfig :=
  { image := "ipfs/kubo:v0.19.1@sha256:c4527752a2130f55090be89ade8dde8f8a5328ec72570676b90f66e2cabf827d"
    image_pull_policy := "IfNotPresent"
    resource_limits := { cpu := ⟨"1"⟩, memory := ⟨"2Gi"⟩, storage := ⟨"2Gi"⟩ }
    commands := [] }

/-- `IpfsConfig` (`ceramic.rs` lines 245-248): tagged union of the two IPFS
variants. -/
inductive IpfsConfig where
  | rust (config : RustIpfsConfig)
  | go (config : GoIpfsConfig)
  deriving DecidableEq, Repr

/-- `IpfsConfig::default` (`ceramic.rs` lines 250-254): the Rust variant
with its defaults. -/
def IpfsConfig.default : IpfsConfig := .rust RustIpfsConfig.default

/-- `CeramicConfig` (`ceramic.rs` lines 132-142): a fully resolved ceramic
variant config. -/
structure CeramicConfig where
  weight : Int
  init_config_map : String
  image : String
  image_pull_policy : String
  ipfs : IpfsConfig
  resource_limits : ResourceLimitsConfig
  db_type : String
  postgres : CeramicPostgres
  enable_historical_sync : Bool
  deriving DecidableEq, Repr

/-- `CeramicConfig::default` (`ceramic.rs` lines 350-372). -/
def CeramicConfig.default : CeramicConfig :=
  { weight := 1
    init_config_map := INIT_CONFIG_MAP_NAME
    image := "ceramicnetwork/composedb:latest"
    image_pull_policy := "Always"
    ipfs := IpfsConfig.default
    resource_limits := { cpu := ⟨"1"⟩, memory := ⟨"1Gi"⟩, storage := ⟨"2Gi"⟩ }
    db_type := DB_TYPE_POSTGRES
    postgres := { db_name := none, user_name := none, password := none }
    enable_historical_sync := true }

/-- `CeramicPostgresSpec` (`network/spec.rs` lines 112-119). -/
structure CeramicPostgresSpec where
  db_name : Option String
  user_name : Option String
  password : Option String
  deriving DecidableEq, Repr

/-- `RustIpfsSpec` (`network/spec.rs` lines 134-146). -/
structure RustIpfsSpec where
  image : Option String
  image_pull_policy : Option String
  resource_limits : Option ResourceLimitsSpec
  rust_log : Option String
  env : Option (List (String × String))
  deriving DecidableEq, Repr

/-- `GoIpfsSpec` (`network/spec.rs` lines 151-160). -/
structure GoIpfsSpec where
  image : Option String
  image_pull_policy : Option String
  resource_limits : Option ResourceLimitsSpec
  commands : Option (List String)
  deriving DecidableEq, Repr

/-- `IpfsSpec` (`network/spec.rs` lines 124-129). -/
inductive IpfsSpec where
  | rust (spec : RustIpfsSpec)
  | go (spec : GoIpfsSpec)
  deriving DecidableEq, Repr

/-- `CeramicSpec` (`network/spec.rs` lines 88-107). -/
structure CeramicSpec where
  weight : Option Int
  init_config_map : Option String
  image : Option String
  image_pull_policy : Option String
  ipfs : Option IpfsSpec
  resource_limits : Option ResourceLimitsSpec
  db_type : Option String
  ceramic_postgres : Option CeramicPostgresSpec
  enable_historical_sync : Option Bool
  deriving DecidableEq, Repr

/-- `RustIpfsConfig::from(RustIpfsSpec)` (`ceramic.rs` lines 299-313). -/
def RustIpfsConfig.from_spec (value : RustIpfsSpec) : RustIpfsConfig :=
  let d := RustIpfsConfig.default
  { image := value.image.getD d.image
    image_pull_policy := value.image_pull_policy.getD d.image_pull_policy
    resource_limits := ResourceLimitsConfig.from_spec value.resource_limits d.resource_limits
    rust_log := value.rust_log.getD d.rust_log
    env := value.env }

/-- `GoIpfsConfig::from(GoIpfsSpec)` (`ceramic.rs` lines 335-348). -/
def GoIpfsConfig.from_spec (value : GoIpfsSpec) : GoIpfsConfig :=
  let d := GoIpfsConfig.default
  { image := value.image.getD d.image
    image_pull_policy := value.image_pull_policy.getD d.image_pull_policy
    resource_limits := ResourceLimitsConfig.from_spec value.resource_limits d.resource_limits
    commands := value.commands.getD d.commands }

/-- `IpfsConfig::from(IpfsSpec)` (`ceramic.rs` lines 410-417). -/
def IpfsConfig.from_spec : IpfsSpec → IpfsConfig
  | .rust spec => .rust (RustIpfsConfig.from_spec spec)
  | .go spec => .go (GoIpfsConfig.from_spec spec)

/-- `CeramicConfig::from(CeramicSpec)` (`ceramic.rs` lines 386-408).  The
source evaluates `value.ceramic_postgres.clone().unwrap()` for every one of
the three credential fields, unconditionally on `db_type`; when
`ceramic_postgres` is `None` that `unwrap` panics, which we embed as a
`none` result.  There is no error channel: the abort is fatal. -/
def CeramicConfig.from_spec (value : CeramicSpec) : Option CeramicConfig :=
  let d := CeramicConfig.default
  match value.ceramic_postgres with
  | none => none
  | some pg =>
    some
      { weight := value.weight.getD d.weight
        init_config_map := value.init_config_map.getD d.init_config_map
        image := value.image.getD d.image
        image_pull_policy := value.image_pull_policy.getD d.image_pull_policy
        ipfs := (value.ipfs.map IpfsConfig.from_spec).getD d.ipfs
        resource_limits := ResourceLimitsConfig.from_spec value.resource_limits d.resource_limits
        db_type := value.db_type.getD d.db_type
        postgres := { db_name := pg.db_name, user_name := pg.user_name, password := pg.password }
        enable_historical_sync := value.enable_historical_sync.getD d.enable_historical_sync }

/-- `CeramicConfigs::from(Vec<CeramicSpec>)` (`ceramic.rs` lines 376-384):
an empty variant list resolves to the single default config, otherwise each
spec is resolved in order (propagating a resolution panic). -/
def CeramicConfigs.from_specs (value : List CeramicSpec) : Option (List CeramicConfig) :=
  if value.isEmpty then some [CeramicConfig.default]
  else value.mapM CeramicConfig.from_spec

/-- The indexing database connection string computed at the top of
`stateful_set_spec` (`ceramic.rs` lines 639-643): for the postgres backend
it unwraps all three credentials (a `None` credential panics, embedded as
`none`); otherwise the fixed sqlite connection string. -/
def dbConnectionString (config : CeramicConfig) : Option String :=
  if config.db_type = DB_TYPE_POSTGRES then
    match config.postgres.user_name, config.postgres.password, config.postgres.db_name with
    | some user, some password, some db =>
      some ("postgres://" ++ user ++ ":" ++ password ++ "@" ++
        CERAMIC_POSTGRES_SERVICE_NAME ++ ":5432/" ++ db)
    | _, _, _ => none
  else
    some "sqlite:///ceramic-data/ceramic.db"

/-- C5: resolving an empty ceramic variant list yields exactly one config,
equal to the static default — default IPFS variant (Rust), default database
backend, default resource limits — with every field spelled out concretely. -/
theorem empty_variant_list_resolves_to_default :
    CeramicConfigs.from_specs [] = some [CeramicConfig.default] ∧
    CeramicConfig.default =
      { weight := 1
        init_config_map := INIT_CONFIG_MAP_NAME
        image := "ceramicnetwork/composedb:latest"
        image_pull_policy := "Always"
        ipfs := .rust
          { image := "public.ecr.aws/r5b3e0r5/3box/ceramic-one:latest"
            image_pull_policy := "Always"
            resource_limits := { cpu := ⟨"250m"⟩, memory := ⟨"512Mi"⟩, storage := ⟨"1Gi"⟩ }
            rust_log := "info,ceramic_one=debug,tracing_actix_web=debug,quinn_proto=error"
            env := none }
        resource_limits := { cpu := ⟨"1"⟩, memory := ⟨"1Gi"⟩, storage := ⟨"2Gi"⟩ }
        db_type := DB_TYPE_POSTGRES
        postgres := { db_name := none, user_name := none, password := none }
        enable_historical_sync := true } := by
  exact ⟨rfl, rfl⟩

/-- The postgres credentials of a ceramic variant spec are not fully
resolved: either the `ceramic_postgres` field is absent, or one of its three
credential fields is. -/
def credsUnresolved (value : CeramicSpec) : Prop :=
  match value.ceramic_postgres with
  | none => True
  | some pg => pg.db_name = none ∨ pg.user_name = none ∨ pg.password = none

/-- C7: a ceramic variant spec whose database backend resolves to postgres
but whose postgres credentials are not resolved fails fatally: either the
resolution itself panics (`CeramicConfig.from_spec` is `none`), or every
config it produces panics when the stateful-set connection string unwraps a
missing credential.  Neither function has a typed error channel — the
failure is an unrecoverable abort, exactly as in the source. -/
theorem postgres_without_credentials_is_fatal (value : CeramicSpec)
    (hdb : value.db_type.getD CeramicConfig.default.db_type = DB_TYPE_POSTGRES)
    (hcreds : credsUnresolved value) :
    ∀ config, CeramicConfig.from_spec value = some config →
      dbConnectionString config = none := by
  intro config hconfig
  unfold CeramicConfig.from_spec at hconfig
  cases hpg : value.ceramic_postgres with
  | none => simp [hpg] at hconfig
  | some pg =>
    simp only [hpg] at hconfig
    obtain rfl := Option.some.inj hconfig
    unfold credsUnresolved at hcreds
    rw [hpg] at hcreds
    unfold dbConnectionString
    simp only [hdb, if_pos rfl]
    rcases hcreds with h | h | h <;> simp [h]

/-- Witness for C7 at a concrete input: a spec selecting the postgres
backend with present-but-empty credentials resolves, and the resolved
config's connection-string computation panics. -/
theorem postgres_without_credentials_is_fatal_witness :
    dbConnectionString
      { weight := 1
        init_config_map := INIT_CONFIG_MAP_NAME
        image := "ceramicnetwork/composedb:latest"
        image_pull_policy := "Always"
        ipfs := IpfsConfig.default
        resource_limits := { cpu := ⟨"1"⟩, memory := ⟨"1Gi"⟩, storage := ⟨"2Gi"⟩ }
        db_type := DB_TYPE_POSTGRES
        postgres := { db_name := none, user_name := none, password := none }
        enable_historical_sync := true } = none := by
  exact postgres_without_credentials_is_fatal
    { weight := none, init_config_map := none, image := none, image_pull_policy := none
      ipfs := none, resource_limits := none, db_type := some DB_TYPE_POSTGRES
      ceramic_postgres := some { db_name := none, user_name := none, password := none }
      enable_historical_sync := none }
    rfl (Or.inl rfl) _ rfl

/-- C10: config resolution requires `ceramic_postgres` to be present
unconditionally — a spec without it panics during resolution regardless of
which database backend its `db_type` resolves to. -/
theorem resolution_requires_ceramic_postgres (value : CeramicSpec)
    (h : value.ceramic_postgres = none) :
    CeramicConfig.from_spec value = none := by
  unfold CeramicConfig.from_spec
  rw [h]

/-- Witness for C10 at a concrete input: a spec that selects the sqlite
backend — where postgres credentials are never used — still panics during
resolution because `ceramic_postgres` is absent. -/
theorem resolution_requires_ceramic_postgres_witness :
    CeramicConfig.from_spec
      { weight := none, init_config_map := none, image := none, image_pull_policy := none
        ipfs := none, resource_limits := none, db_type := some DB_TYPE_SQLITE
        ceramic_postgres := none, enable_historical_sync := none } = none := by
  exact resolution_requires_ceramic_postgres _ rfl

/-! ## Rust IPFS container env vars: `RustIpfsConfig::container`

The container's env list (`ceramic.rs` lines 419-488): a fixed synthesized
list, then the extra env overrides (`Vec::swap_remove` of any same-named
entry followed by a push), then an unstable sort by name. -/

/-- `k8s_openapi` `EnvVar` as used by `RustIpfsConfig::container`: a name
and a plain value (the `value_from` form is not used there). -/
structure EnvVar where
  name : String
  value : Option String
  deriving DecidableEq, Repr

/-- The synthesized env list built at the top of `RustIpfsConfig::container`
(`ceramic.rs` lines 421-474). -/
def rustIpfsBaseEnv (c : RustIpfsConfig) : List EnvVar :=
  [ ⟨"RUST_LOG", some c.rust_log⟩,
    ⟨"CERAMIC_ONE_BIND_ADDRESS", some ("0.0.0.0:" ++ toString CERAMIC_SERVICE_IPFS_PORT)⟩,
    ⟨"CERAMIC_ONE_METRICS", some "true"⟩,
    ⟨"CERAMIC_ONE_METRICS_BIND_ADDRESS", some "0.0.0.0:9465"⟩,
    ⟨"CERAMIC_ONE_SWARM_ADDRESSES", some "/ip4/0.0.0.0/tcp/4001"⟩,
    ⟨"CERAMIC_ONE_STORE_DIR", some "/data/ipfs"⟩,
    ⟨"CERAMIC_ONE_NETWORK", some "local"⟩,
    ⟨"CERAMIC_ONE_LOCAL_NETWORK_ID", some "0"⟩,
    ⟨"CERAMIC_ONE_KADEMLIA_REPLICATION", some "6"⟩,
    ⟨"CERAMIC_ONE_KADEMLIA_PARALLELISM", some "1"⟩ ]

/-- Rust `Vec::swap_remove(i)`: remove the element at index `i`, moving the
last element into its place.  (`List.set` is the identity out of bounds,
which matches the `i = length - 1` case where only the pop happens.) -/
def swapRemove (l : List α) (i : Nat) : List α :=
  match l.getLast? with
  | none => []
  | some last => l.dropLast.set i last

/-- One iteration of the extra-env override loop (`ceramic.rs` lines
476-485): if a synthesized variable with the override's name exists,
`swap_remove` it, then push the override. -/
def applyEnvOverride (env : List EnvVar) (kv : String × String) : List EnvVar :=
  (match env.findIdx? (fun var => var.name == kv.1) with
   | some pos => swapRemove env pos
   | none => env) ++ [⟨kv.1, some kv.2⟩]

/-- The whole extra-env override loop: iterate `applyEnvOverride` over the
map entries (a `HashMap` iteration, embedded as a key-distinct association
list in arbitrary order). -/
def overrideEnv (env : List EnvVar) (extra : List (String × String)) : List EnvVar :=
  extra.foldl applyEnvOverride env

/-- The comparison used by the final `sort_unstable_by` (`ceramic.rs` line
488): order env vars by name. -/
def envNameLe (a b : EnvVar) : Prop := a.name ≤ b.name

instance : DecidableRel envNameLe := fun a b =>
  inferInstanceAs (Decidable (a.name ≤ b.name))

instance : IsTotal EnvVar envNameLe := ⟨fun a b => le_total a.name b.name⟩

instance : IsTrans EnvVar envNameLe := ⟨fun _ _ _ h h' => le_trans h h'⟩

/-- The env list of the container built by `RustIpfsConfig::container`
(`ceramic.rs` lines 419-488): synthesized list, overrides if extra env is
present, then sort by name.  `sort_unstable_by` is embedded as insertion
sort — the claim and source only rely on the result being sorted. -/
def RustIpfsConfig.containerEnv (c : RustIpfsConfig) : List EnvVar :=
  let env := rustIpfsBaseEnv c
  let env :=
    match c.env with
    | some extra => overrideEnv env extra
    | none => env
  List.insertionSort envNameLe env

/-- `swapRemove` at a valid index is a permutation of erasing that index. -/
theorem swapRemove_perm : ∀ (l : List α) (i : Nat), i < l.length →
    swapRemove l i ~ l.eraseIdx i := by
  intro l
  induction l with
  | nil => intro i h; simp at h
  | cons a t ih =>
    intro i h
    cases t with
    | nil =>
      have hi : i = 0 := Nat.lt_one_iff.mp (by simpa using h)
      subst hi
      simp [swapRemove]
    | cons b t' =>
      cases i with
      | zero =>
        show swapRemove (a :: b :: t') 0 ~ b :: t'
        unfold swapRemove
        rw [List.getLast?_eq_getLast (a :: b :: t') (by simp)]
        simp only [List.dropLast_cons₂, List.set_cons_zero]
        calc ((a :: b :: t').getLast (by simp)) :: (b :: t').dropLast
            ~ (b :: t').dropLast ++ [(a :: b :: t').getLast (by simp)] :=
              (List.perm_append_singleton _ _).symm
          _ = b :: t' := by
              rw [List.getLast_cons (by simp)]
              exact List.dropLast_concat_getLast (by simp)
      | succ i' =>
        have h' : i' < (b :: t').length := by
          simpa using Nat.lt_of_succ_lt_succ h
        have hstep : swapRemove (a :: b :: t') (i' + 1) = a :: swapRemove (b :: t') i' := by
          unfold swapRemove
          rw [List.getLast?_cons_cons]
          cases hl : (b :: t').getLast? with
          | none => simp at hl
          | some last => simp
        rw [hstep]
        simpa using (ih i' h').cons a

/-- Erasing at the index found by `findIdx?` is `eraseP`. -/
theorem eraseIdx_findIdx?_eq_eraseP (p : α → Bool) :
    ∀ (l : List α) (i : Nat), l.findIdx? p = some i → l.eraseIdx i = l.eraseP p := by
  intro l
  induction l with
  | nil => intro i h; simp at h
  | cons a t ih =>
    intro i h
    rw [List.findIdx?_cons] at h
    by_cases hpa : p a
    · rw [if_pos hpa] at h
      obtain rfl := Option.some.inj h
      simp [List.eraseP_cons_of_pos hpa]
    · rw [if_neg hpa, List.findIdx?_succ] at h
      cases hft : t.findIdx? p with
      | none => rw [hft] at h; simp at h
      | some j =>
        rw [hft] at h
        simp only [Option.map_some'] at h
        obtain rfl := Option.some.inj h.symm
        simp only [List.eraseIdx_cons_succ, List.eraseP_cons_of_neg hpa]
        rw [ih j hft]

/-- One override step is, up to permutation, erasing the first same-named
entry and appending the override. -/
theorem applyEnvOverride_perm (env : List EnvVar) (kv : String × String) :
    applyEnvOverride env kv ~
      env.eraseP (fun var => var.name == kv.1) ++ [⟨kv.1, some kv.2⟩] := by
  unfold applyEnvOverride
  cases hf : env.findIdx? (fun var => var.name == kv.1) with
  | none =>
    rw [List.eraseP_of_forall_not]
    intro a ha
    have := List.findIdx?_eq_none_iff.mp hf a ha
    simpa using this
  | some pos =>
    have hlt : pos < env.length :=
      (List.findIdx?_eq_some_iff_findIdx_eq.mp hf).1
    refine List.Perm.append_right _ ?_
    exact (swapRemove_perm env pos hlt).trans
      (by rw [eraseIdx_findIdx?_eq_eraseP _ _ _ hf])

/-- The list of env var names. -/
def envNames (l : List EnvVar) : List String := l.map EnvVar.name

/-- After erasing the first entry named `k` from a name-distinct env list,
no entry named `k` remains. -/
theorem not_mem_envNames_eraseP (env : List EnvVar) (k : String)
    (hnd : (envNames env).Nodup) :
    k ∉ envNames (env.eraseP (fun var => var.name == k)) := by
  by_cases hex : ∃ x ∈ env, x.name = k
  · obtain ⟨x, hx, hxk⟩ := hex
    obtain ⟨a, l₁, l₂, hl₁, hpa, hsplit, herase⟩ :=
      List.exists_of_eraseP (p := fun var => var.name == k) hx (by simpa using hxk)
    rw [herase]
    have hak : a.name = k := by simpa using hpa
    rw [hsplit] at hnd
    unfold envNames at hnd ⊢
    rw [List.map_append] at hnd ⊢
    rw [List.map_cons] at hnd
    have hk₂ : k ∉ l₂.map EnvVar.name := by
      have h₂ : (a.name :: l₂.map EnvVar.name).Nodup := (List.nodup_append.mp hnd).2.1
      rw [hak] at h₂
      exact (List.nodup_cons.mp h₂).1
    have hk₁ : k ∉ l₁.map EnvVar.name := by
      intro hk
      obtain ⟨b, hb, hbk⟩ := List.mem_map.mp hk
      exact hl₁ b hb (by simpa using hbk)
    intro hk
    rcases List.mem_append.mp hk with h | h
    · exact hk₁ h
    · exact hk₂ h
  · rw [List.eraseP_of_forall_not (by
      intro a ha
      simp only [beq_iff_eq]
      exact fun hak => hex ⟨a, ha, hak⟩)]
    intro hk
    obtain ⟨x, hx, hxk⟩ := List.mem_map.mp hk
    exact hex ⟨x, hx, hxk⟩

/-- Erasing the first entry named `k` keeps every entry with a different
name. -/
theorem mem_eraseP_of_name_ne (env : List EnvVar) (k : String) (v : EnvVar)
    (hv : v ∈ env) (hne : v.name ≠ k) :
    v ∈ env.eraseP (fun var => var.name == k) := by
  by_cases hex : ∃ x ∈ env, (x.name == k) = true
  · obtain ⟨x, hx, hxk⟩ := hex
    obtain ⟨a, l₁, l₂, _, hpa, hsplit, herase⟩ :=
      List.exists_of_eraseP (p := fun var => var.name == k) hx hxk
    rw [herase]
    rw [hsplit] at hv
    rcases List.mem_append.mp hv with h | h
    · exact List.mem_append.mpr (.inl h)
    · rcases List.mem_cons.mp h with rfl | h
      · exact absurd (by simpa using hpa) hne
      · exact List.mem_append.mpr (.inr h)
  · rw [List.eraseP_of_forall_not fun a ha hpa => hex ⟨a, ha, hpa⟩]
    exact hv

/-- The override loop invariant: starting from a name-distinct env list and
key-distinct overrides, the result has distinct names, contains every
override verbatim, keeps every non-overridden input entry, and contains
nothing else. -/
theorem overrideEnv_invariant :
    ∀ (extra : List (String × String)) (env : List EnvVar),
      (envNames env).Nodup → (extra.map Prod.fst).Nodup →
      ((envNames (overrideEnv env extra)).Nodup
      ∧ (∀ kv ∈ extra, (⟨kv.1, some kv.2⟩ : EnvVar) ∈ overrideEnv env extra)
      ∧ (∀ v ∈ env, v.name ∉ extra.map Prod.fst → v ∈ overrideEnv env extra)
      ∧ (∀ v ∈ overrideEnv env extra,
          v ∈ env ∨ ∃ kv ∈ extra, v = (⟨kv.1, some kv.2⟩ : EnvVar))) := by
  intro extra
  induction extra with
  | nil =>
    intro env hnd _
    exact ⟨hnd, by simp, fun v hv _ => hv, fun v hv => .inl hv⟩
  | cons kv rest ih =>
    intro env hnd hk
    have hstep := applyEnvOverride_perm env kv
    have hfold : overrideEnv env (kv :: rest) = overrideEnv (applyEnvOverride env kv) rest := rfl
    have hnd' : (envNames (applyEnvOverride env kv)).Nodup := by
      have hperm : envNames (applyEnvOverride env kv) ~
          envNames (env.eraseP (fun var => var.name == kv.1)) ++ [kv.1] := by
        simpa [envNames] using hstep.map EnvVar.name
      rw [hperm.nodup_iff]
      rw [List.nodup_append]
      refine ⟨?_, List.nodup_singleton _, ?_⟩
      · exact hnd.sublist ((List.eraseP_sublist env).map EnvVar.name)
      · intro x hx hx'
        have hxk : x = kv.1 := by simpa using hx'
        subst hxk
        exact not_mem_envNames_eraseP env kv.1 hnd hx
    have hmem' : (⟨kv.1, some kv.2⟩ : EnvVar) ∈ applyEnvOverride env kv :=
      hstep.mem_iff.mpr (List.mem_append.mpr (.inr (by simp)))
    have hkeep' : ∀ v ∈ env, v.name ≠ kv.1 → v ∈ applyEnvOverride env kv := fun v hv hne =>
      hstep.mem_iff.mpr (List.mem_append.mpr (.inl (mem_eraseP_of_name_ne env kv.1 v hv hne)))
    have hfrom' : ∀ v ∈ applyEnvOverride env kv,
        v ∈ env ∨ v = (⟨kv.1, some kv.2⟩ : EnvVar) := by
      intro v hv
      rcases List.mem_append.mp (hstep.mem_iff.mp hv) with h | h
      · exact .inl (List.eraseP_subset env h)
      · exact .inr (by simpa using h)
    have hkcons : kv.1 ∉ rest.map Prod.fst ∧ (rest.map Prod.fst).Nodup := by
      have : (kv.1 :: rest.map Prod.fst).Nodup := by simpa using hk
      exact List.nodup_cons.mp this
    obtain ⟨ihnd, ihmem, ihkeep, ihfrom⟩ := ih (applyEnvOverride env kv) hnd' hkcons.2
    rw [hfold]
    refine ⟨ihnd, ?_, ?_, ?_⟩
    · intro kv' hkv'
      rcases List.mem_cons.mp hkv' with rfl | h
      · exact ihkeep _ hmem' hkcons.1
      · exact ihmem kv' h
    · intro v hv hnotin
      have hne : v.name ≠ kv.1 := fun hEq => hnotin (by simp [hEq])
      exact ihkeep v (hkeep' v hv hne) fun hmem => hnotin (by simp [hmem])
    · intro v hv
      rcases ihfrom v hv with h | ⟨kv', hkv', rfl⟩
      · rcases hfrom' v h with h' | rfl
        · exact .inl h'
        · exact .inr ⟨kv, by simp, rfl⟩
      · exact .inr ⟨kv', by simp [hkv'], rfl⟩

/-- C6: the env-var list of the built Rust IPFS container has pairwise
distinct names and is sorted by name; every extra env override appears
verbatim (entirely replacing any same-named synthesized variable — any
entry carrying an overridden name is exactly the override), every
non-overridden synthesized variable keeps its synthesized value, and
nothing else appears. -/
theorem rust_ipfs_container_env_canonical (c : RustIpfsConfig)
    (hkeys : ((c.env.getD []).map Prod.fst).Nodup) :
    (envNames c.containerEnv).Nodup
    ∧ c.containerEnv.Sorted envNameLe
    ∧ (∀ kv ∈ c.env.getD [], (⟨kv.1, some kv.2⟩ : EnvVar) ∈ c.containerEnv)
    ∧ (∀ kv ∈ c.env.getD [], ∀ v ∈ c.containerEnv, v.name = kv.1 →
        v = (⟨kv.1, some kv.2⟩ : EnvVar))
    ∧ (∀ v ∈ rustIpfsBaseEnv c, v.name ∉ (c.env.getD []).map Prod.fst →
        v ∈ c.containerEnv)
    ∧ (∀ v ∈ c.containerEnv, v ∈ rustIpfsBaseEnv c ∨
        ∃ kv ∈ c.env.getD [], v = (⟨kv.1, some kv.2⟩ : EnvVar)) := by
  have hbase : (envNames (rustIpfsBaseEnv c)).Nodup := by
    have hred : envNames (rustIpfsBaseEnv c) =
        ["RUST_LOG", "CERAMIC_ONE_BIND_ADDRESS", "CERAMIC_ONE_METRICS",
         "CERAMIC_ONE_METRICS_BIND_ADDRESS", "CERAMIC_ONE_SWARM_ADDRESSES",
         "CERAMIC_ONE_STORE_DIR", "CERAMIC_ONE_NETWORK",
         "CERAMIC_ONE_LOCAL_NETWORK_ID", "CERAMIC_ONE_KADEMLIA_REPLICATION",
         "CERAMIC_ONE_KADEMLIA_PARALLELISM"] := rfl
    rw [hred]
    decide
  have hover : c.containerEnv =
      List.insertionSort envNameLe (overrideEnv (rustIpfsBaseEnv c) (c.env.getD [])) := by
    unfold RustIpfsConfig.containerEnv
    cases c.env <;> rfl
  obtain ⟨hnd, hmem, hkeep, hfrom⟩ :=
    overrideEnv_invariant (c.env.getD []) (rustIpfsBaseEnv c) hbase hkeys
  have hperm : c.containerEnv ~ overrideEnv (rustIpfsBaseEnv c) (c.env.getD []) := by
    rw [hover]
    exact List.perm_insertionSort _ _
  have hndc : (envNames c.containerEnv).Nodup := by
    have := (hperm.map EnvVar.name).nodup_iff
    unfold envNames
    exact this.mpr hnd
  refine ⟨hndc, ?_, ?_, ?_, ?_, ?_⟩
  · rw [hover]
    exact List.sorted_insertionSort _ _
  · exact fun kv hkv => hperm.mem_iff.mpr (hmem kv hkv)
  · intro kv hkv v hv hname
    have h1 : (⟨kv.1, some kv.2⟩ : EnvVar) ∈ c.containerEnv :=
      hperm.mem_iff.mpr (hmem kv hkv)
    have hndm : (c.containerEnv.map EnvVar.name).Nodup := hndc
    exact List.inj_on_of_nodup_map hndm hv h1 (by simpa using hname)
  · exact fun v hv hni => hperm.mem_iff.mpr (hkeep v hv hni)
  · exact fun v hv => hfrom v (hperm.mem_iff.mp hv)

/-- A concrete resolved Rust IPFS config with two extra env overrides, one
of which (RUST_LOG) collides with a synthesized variable. -/
def rustIpfsExampleConfig : RustIpfsConfig :=
  { RustIpfsConfig.default with
    env := some [("RUST_LOG", "warn"), ("IPFS_EXTRA_FLAG", "1")] }

/-- Witness for C6 at `rustIpfsExampleConfig`. -/
theorem rust_ipfs_container_env_canonical_witness :
    ((rustIpfsExampleConfig.env.getD []).map Prod.fst).Nodup
    ∧ ((envNames rustIpfsExampleConfig.containerEnv).Nodup
    ∧ rustIpfsExampleConfig.containerEnv.Sorted envNameLe
    ∧ (∀ kv ∈ rustIpfsExampleConfig.env.getD [],
        (⟨kv.1, some kv.2⟩ : EnvVar) ∈ rustIpfsExampleConfig.containerEnv)
    ∧ (∀ kv ∈ rustIpfsExampleConfig.env.getD [],
        ∀ v ∈ rustIpfsExampleConfig.containerEnv, v.name = kv.1 →
          v = (⟨kv.1, some kv.2⟩ : EnvVar))
    ∧ (∀ v ∈ rustIpfsBaseEnv rustIpfsExampleConfig,
        v.name ∉ (rustIpfsExampleConfig.env.getD []).map Prod.fst →
          v ∈ rustIpfsExampleConfig.containerEnv)
    ∧ (∀ v ∈ rustIpfsExampleConfig.containerEnv,
        v ∈ rustIpfsBaseEnv rustIpfsExampleConfig ∨
          ∃ kv ∈ rustIpfsExampleConfig.env.getD [],
            v = (⟨kv.1, some kv.2⟩ : EnvVar))) :=
  ⟨by decide, rust_ipfs_container_env_canonical rustIpfsExampleConfig (by decide)⟩

/-! ## Simulation control loop: `simulation/controller.rs`

The reconcile pass is embedded as a pure function over the declared
resource's state and a `SimWorld` recording the outcome of every external
store call the pass makes, in program order.  The pass returns the list of
mutating calls (applies and the status patch) that completed, plus its
outcome: `none` embeds a Rust panic (an `unwrap` of missing data), `some
(.error e)` an aborted pass (handled by `on_error`), and `some (.ok a)` the
returned requeue action. -/

/-- Modelled from the spec: `keramik_common::peer_info::CeramicPeerInfo` is
not under `src/`; spec §3 — the Ceramic variant carries peer id, RPC
address, API address and a list of dialable multiaddrs (the construction in
`controller.rs` tests uses exactly these fields). -/
structure CeramicPeerInfo where
  peer_id : String
  ipfs_rpc_addr : String
  ceramic_addr : String
  p2p_addrs : List String
  deriving DecidableEq, Repr

/-- Modelled from the spec: `keramik_common::peer_info::Peer` is not under
`src/`; spec §3 — a tagged union keyed by peer kind, with a Ceramic kind
and a non-Ceramic (plain IPFS) kind; `controller.rs` line 267 matches on
`Peer::Ceramic(_)`. -/
inductive Peer where
  | ceramic (info : CeramicPeerInfo)
  | ipfs (info : IpfsPeerInfo)
  deriving DecidableEq, Repr

/-- `matches!(peer, Peer::Ceramic(_))` (`controller.rs` line 267). -/
def Peer.isCeramic : Peer → Bool
  | .ceramic _ => true
  | .ipfs _ => false

/-- The counting step of `get_num_peers` (`controller.rs` lines 256-272):
keep only Ceramic-kind registry entries and count them. -/
def numCeramicPeers (peers : List Peer) : Nat :=
  (peers.filter Peer.isCeramic).length

/-- `SimulationStatus` (`simulation/mod.rs`, mirrored in `stub.rs`): the
single persisted nonce. -/
structure SimulationStatus where
  nonce : Nat
  deriving DecidableEq, Repr

/-- Modelled from the spec: `SimulationSpec` lives in `simulation/mod.rs`
(not under `src/`); its fields are the ones `controller.rs` reads —
scenario, user count, run time, image overrides and request throttle
(spec §4.5 step 6). -/
structure SimulationSpec where
  scenario : String
  users : Nat
  run_time : Nat
  image : Option String
  image_pull_policy : Option String
  throttle_requests : Option Nat
  deriving DecidableEq, Repr

/-- Modelled from the spec: `JobImageConfig` lives in `simulation/job.rs`
(not under `src/`); it carries the image overrides taken from the
simulation spec (`JobImageConfig::from(spec)` at `controller.rs` line
167). -/
structure JobImageConfig where
  image : Option String
  image_pull_policy : Option String
  deriving DecidableEq, Repr

/-- `JobImageConfig::from(&SimulationSpec)`: copy the image overrides. -/
def JobImageConfig.from_spec (spec : SimulationSpec) : JobImageConfig :=
  { image := spec.image, image_pull_policy := spec.image_pull_policy }

/-- `ManagerConfig` as constructed in `reconcile` (`controller.rs` lines
169-176). -/
structure ManagerConfig where
  scenario : String
  users : Nat
  run_time : Nat
  nonce : Nat
  job_image_config : JobImageConfig
  throttle_requests : Option Nat
  deriving DecidableEq, Repr

/-- `WorkerConfig` as constructed in `apply_n_workers` (`controller.rs`
lines 329-334). -/
structure WorkerConfig where
  scenario : String
  target_peer : Nat
  nonce : Nat
  job_image_config : JobImageConfig
  deriving DecidableEq, Repr

/-- `k8s_openapi` `StatefulSetStatus` as read by the readiness checks. -/
structure StatefulSetStatus where
  ready_replicas : Option Int
  deriving DecidableEq, Repr

/-- `k8s_openapi` `JobStatus` as read by the manager gate. -/
structure JobStatus where
  ready : Option Int
  deriving DecidableEq, Repr

/-- `kube::runtime::controller::Action`: a timed requeue. -/
inductive Action where
  | requeue (seconds : Nat)
  deriving DecidableEq, Repr

/-- The error type at the loop boundary; its payload is irrelevant to the
retry policy. -/
abbrev StoreErr := String

/-- `on_error` (`controller.rs` lines 52-59): every error requeues after 5
seconds, regardless of the error. -/
def onError (_e : StoreErr) : Action := .requeue 5

/-- `MANAGER_SERVICE_NAME` (`controller.rs` line 211). -/
def MANAGER_SERVICE_NAME : String := "goose"

/-- `MANAGER_JOB_NAME` (`controller.rs` line 212). -/
def MANAGER_JOB_NAME : String := "simulate-manager"

/-- `WORKER_JOB_NAME` (`controller.rs` line 213). -/
def WORKER_JOB_NAME : String := "simulate-worker"

/-- `JAEGER_SERVICE_NAME` (`controller.rs` line 215). -/
def JAEGER_SERVICE_NAME : String := "jaeger"

/-- `OTEL_SERVICE_NAME` (`controller.rs` line 216). -/
def OTEL_SERVICE_NAME : String := "otel"

/-- `OTEL_CR_BINDING` (`controller.rs` line 218). -/
def OTEL_CR_BINDING : String := "monitoring-cluster-role-binding"

/-- `OTEL_CR` (`controller.rs` line 219). -/
def OTEL_CR : String := "monitoring-cluster-role"

/-- `OTEL_ACCOUNT` (`controller.rs` line 220). -/
def OTEL_ACCOUNT : String := "monitoring-service-account"

/-- `OTEL_CONFIG_MAP_NAME` (`controller.rs` line 222). -/
def OTEL_CONFIG_MAP_NAME : String := "otel-config"

/-- `PROM_CONFIG_MAP_NAME` (`controller.rs` line 223). -/
def PROM_CONFIG_MAP_NAME : String := "prom-config"

/-- A mutating call issued by the simulation reconcile pass. -/
inductive SimEvent where
  | applyService (name : String)
  | applyStatefulSet (name : String)
  | applyConfigMap (name : String)
  | applyAccount (name : String)
  | applyClusterRole (name : String)
  | applyClusterRoleBinding (name : String)
  | applyManagerJob (name : String) (config : ManagerConfig)
  | applyWorkerJob (name : String) (config : WorkerConfig)
  | patchStatus (status : SimulationStatus)
  deriving DecidableEq, Repr

/-- The applies issued by `apply_jaeger` (`controller.rs` lines 379-407),
in order. -/
def applyJaegerEvents : List SimEvent :=
  [.applyService JAEGER_SERVICE_NAME, .applyStatefulSet "jaeger"]

/-- The applies issued by `apply_prometheus` (`controller.rs` lines
409-436), in order. -/
def applyPrometheusEvents : List SimEvent :=
  [.applyConfigMap PROM_CONFIG_MAP_NAME, .applyStatefulSet "prometheus"]

/-- The applies issued by `apply_opentelemetry` (`controller.rs` lines
438-490), in order. -/
def applyOpentelemetryEvents : List SimEvent :=
  [.applyAccount OTEL_ACCOUNT, .applyClusterRole OTEL_CR,
   .applyClusterRoleBinding OTEL_CR_BINDING, .applyConfigMap OTEL_CONFIG_MAP_NAME,
   .applyService OTEL_SERVICE_NAME, .applyStatefulSet "opentelemetry"]

/-- The applies issued by `apply_redis` (`controller.rs` lines 349-377),
in order. -/
def applyRedisEvents : List SimEvent :=
  [.applyService "redis", .applyStatefulSet "redis"]

/-- The applies issued by `apply_manager` (`controller.rs` lines 225-254),
in order. -/
def applyManagerEvents (config : ManagerConfig) : List SimEvent :=
  [.applyService MANAGER_SERVICE_NAME, .applyManagerJob MANAGER_JOB_NAME config]

/-- The outcomes of the external store calls a simulation reconcile pass
makes, in program order.  `peersMap` is the peers config map GET together
with its data extraction (`none` embeds the `unwrap` panics on a missing or
malformed map); `managerJobStatus` is the manager job GET (`none` embeds
the `status.unwrap()` panic); per-call apply outcomes allow any call to
fail. -/
structure SimWorld where
  peersMap : Except StoreErr (Option (List Peer))
  applyJaeger : Except StoreErr Unit
  applyPrometheus : Except StoreErr Unit
  applyOpentelemetry : Except StoreErr Unit
  jaegerStatus : Except StoreErr (Option StatefulSetStatus)
  promStatus : Except StoreErr (Option StatefulSetStatus)
  otelStatus : Except StoreErr (Option StatefulSetStatus)
  applyRedis : Except StoreErr Unit
  redisStatus : Except StoreErr (Option StatefulSetStatus)
  applyManager : Except StoreErr Unit
  managerJobStatus : Except StoreErr (Option JobStatus)
  applyWorker : Nat → Except StoreErr Unit
  patchStatus : Except StoreErr Unit

/-- `.status.map(|s| s.ready_replicas.unwrap_or_default() > 0)
.unwrap_or_default()` as used by both readiness checks. -/
def statefulSetReadyFlag (status : Option StatefulSetStatus) : Bool :=
  (status.map fun s => decide (s.ready_replicas.getD 0 > 0)).getD false

/-- `monitoring_ready` (`controller.rs` lines 289-312): get the three
observability stateful-set statuses and require each to report a positive
ready-replica count. -/
def monitoringReady (w : SimWorld) : Except StoreErr Bool :=
  match w.jaegerStatus with
  | .error e => .error e
  | .ok jaeger =>
    match w.promStatus with
    | .error e => .error e
    | .ok prom =>
      match w.otelStatus with
      | .error e => .error e
      | .ok otel =>
        .ok (statefulSetReadyFlag jaeger && statefulSetReadyFlag prom &&
          statefulSetReadyFlag otel)

/-- `redis_ready` (`controller.rs` lines 274-287). -/
def redisReady (w : SimWorld) : Except StoreErr Bool :=
  match w.redisStatus with
  | .error e => .error e
  | .ok redis => .ok (statefulSetReadyFlag redis)

/-- The loop body of `apply_n_workers` (`controller.rs` lines 328-344) over
an explicit list of target peer indices: apply one worker job per index,
named `simulate-worker-<i>` and parameterized with target peer `i`,
stopping at the first failed call. -/
def applyNWorkersLoop (w : SimWorld) (scenario : String) (nonce : Nat)
    (jic : JobImageConfig) : List Nat → List SimEvent × Except StoreErr Unit
  | [] => ([], .ok ())
  | i :: rest =>
    match w.applyWorker i with
    | .error e => ([], .error e)
    | .ok _ =>
      let r := applyNWorkersLoop w scenario nonce jic rest
      (.applyWorkerJob (WORKER_JOB_NAME ++ "-" ++ toString i)
        { scenario := scenario, target_peer := i, nonce := nonce,
          job_image_config := jic } :: r.1, r.2)

/-- `apply_n_workers` (`controller.rs` lines 314-347): `for i in 0..peers`. -/
def applyNWorkers (w : SimWorld) (scenario : String) (nonce : Nat)
    (jic : JobImageConfig) (peers : Nat) : List SimEvent × Except StoreErr Unit :=
  applyNWorkersLoop w scenario nonce jic (List.range peers)

/-- The declared simulation resource as seen by one reconcile pass:
its optional persisted status, the random nonce the pass would generate
(the injected `thread_rng().gen()` draw), and its spec. -/
structure SimulationState where
  status : Option SimulationStatus
  freshNonce : Nat
  spec : SimulationSpec

/-- The status used by the pass (`controller.rs` lines 139-146): the loaded
status if one exists, else a new one with the freshly generated nonce. -/
def SimulationState.loadedStatus (sim : SimulationState) : SimulationStatus :=
  match sim.status with
  | some status => status
  | none => { nonce := sim.freshNonce }

/-- The outcome of a pass: completed calls, and `none` for a panic, or the
aborting error, or the returned action. -/
abbrev SimResult := List SimEvent × Option (Except StoreErr Action)

/-- The `ManagerConfig` a pass builds from the spec and the loaded status
(`controller.rs` lines 169-176). -/
def managerConfigOf (sim : SimulationState) : ManagerConfig :=
  { scenario := sim.spec.scenario, users := sim.spec.users,
    run_time := sim.spec.run_time, nonce := sim.loadedStatus.nonce,
    job_image_config := JobImageConfig.from_spec sim.spec,
    throttle_requests := sim.spec.throttle_requests }

/-- `reconcile` (`controller.rs` lines 132-209), with each awaited external
call resolved against `w` in program order: load or initialize the status;
read the peer registry and count Ceramic entries; apply the observability
stack; gate on its readiness (requeue 10s); apply redis and gate on its
readiness (requeue 10s); apply the manager service and job; read the
manager job status and, if it reports ready > 0, fan out one worker job per
peer; patch the status back; requeue 10s. -/
def simulationReconcile (sim : SimulationState) (w : SimWorld) : SimResult :=
  let status := sim.loadedStatus
  match w.peersMap with
  | .error e => ([], some (.error e))
  | .ok none => ([], none)
  | .ok (some peers) =>
    let num_peers := numCeramicPeers peers
    match w.applyJaeger with
    | .error e => ([], some (.error e))
    | .ok _ =>
      match w.applyPrometheus with
      | .error e => (applyJaegerEvents, some (.error e))
      | .ok _ =>
        match w.applyOpentelemetry with
        | .error e => (applyJaegerEvents ++ applyPrometheusEvents, some (.error e))
        | .ok _ =>
          let evs := applyJaegerEvents ++ applyPrometheusEvents ++ applyOpentelemetryEvents
          match monitoringReady w with
          | .error e => (evs, some (.error e))
          | .ok false => (evs, some (.ok (.requeue 10)))
          | .ok true =>
            match w.applyRedis with
            | .error e => (evs, some (.error e))
            | .ok _ =>
              let evs := evs ++ applyRedisEvents
              match redisReady w with
              | .error e => (evs, some (.error e))
              | .ok false => (evs, some (.ok (.requeue 10)))
              | .ok true =>
                let jic := JobImageConfig.from_spec sim.spec
                match w.applyManager with
                | .error e => (evs, some (.error e))
                | .ok _ =>
                  let evs := evs ++ applyManagerEvents (managerConfigOf sim)
                  match w.managerJobStatus with
                  | .error e => (evs, some (.error e))
                  | .ok none => (evs, none)
                  | .ok (some managerStatus) =>
                    let workers :=
                      if managerStatus.ready.getD 0 > 0 then
                        applyNWorkers w sim.spec.scenario status.nonce jic num_peers
                      else
                        ([], .ok ())
                    match workers.2 with
                    | .error e => (evs ++ workers.1, some (.error e))
                    | .ok _ =>
                      let evs := evs ++ workers.1
                      match w.patchStatus with
                      | .error e => (evs, some (.error e))
                      | .ok _ =>
                        (evs ++ [.patchStatus status], some (.ok (.requeue 10)))

/-- The worker-job apply event for target peer `i`. -/
def mkWorkerEvent (scenario : String) (nonce : Nat) (jic : JobImageConfig)
    (i : Nat) : SimEvent :=
  .applyWorkerJob (WORKER_JOB_NAME ++ "-" ++ toString i)
    { scenario := scenario, target_peer := i, nonce := nonce, job_image_config := jic }

/-- A fully successful worker fan-out applies exactly one worker job per
index, in order. -/
theorem applyNWorkersLoop_ok (w : SimWorld) (scenario : String) (nonce : Nat)
    (jic : JobImageConfig) :
    ∀ l : List Nat, (applyNWorkersLoop w scenario nonce jic l).2 = .ok () →
      (applyNWorkersLoop w scenario nonce jic l).1 =
        l.map (mkWorkerEvent scenario nonce jic) := by
  intro l
  induction l with
  | nil => intro _; rfl
  | cons i rest ih =>
    intro hok
    unfold applyNWorkersLoop at hok ⊢
    cases hw : w.applyWorker i with
    | error e => simp [hw] at hok
    | ok u =>
      simp only [hw] at hok ⊢
      rw [List.map_cons]
      exact congrArg _ (ih hok)

/-- Every event the worker fan-out emits is a worker-job apply. -/
theorem applyNWorkersLoop_events (w : SimWorld) (scenario : String) (nonce : Nat)
    (jic : JobImageConfig) :
    ∀ l : List Nat, ∀ ev ∈ (applyNWorkersLoop w scenario nonce jic l).1,
      ∃ i, ev = mkWorkerEvent scenario nonce jic i := by
  intro l
  induction l with
  | nil => intro ev hev; simp [applyNWorkersLoop] at hev
  | cons i rest ih =>
    intro ev hev
    unfold applyNWorkersLoop at hev
    cases hw : w.applyWorker i with
    | error e => simp [hw] at hev
    | ok u =>
      simp only [hw] at hev
      rcases List.mem_cons.mp hev with rfl | hev
      · exact ⟨i, rfl⟩
      · exact ih ev hev

/-- A concrete simulation spec for the witnesses. -/
def exampleSpec : SimulationSpec :=
  { scenario := "ceramic-simple", users := 10, run_time := 5,
    image := none, image_pull_policy := none, throttle_requests := none }

/-- A concrete simulation state with an existing status (nonce 42). -/
def exampleSim : SimulationState :=
  { status := some { nonce := 42 }, freshNonce := 7, spec := exampleSpec }

/-- A concrete peer registry with three Ceramic-kind entries and two
non-Ceramic entries. -/
def examplePeers : List Peer :=
  [.ceramic { peer_id := "0", ipfs_rpc_addr := "r0", ceramic_addr := "c0", p2p_addrs := [] },
   .ceramic { peer_id := "1", ipfs_rpc_addr := "r1", ceramic_addr := "c1", p2p_addrs := [] },
   .ipfs { peer_id := "x", ipfs_rpc_addr := "rx", p2p_addrs := [] },
   .ceramic { peer_id := "2", ipfs_rpc_addr := "r2", ceramic_addr := "c2", p2p_addrs := [] },
   .ipfs { peer_id := "y", ipfs_rpc_addr := "ry", p2p_addrs := [] }]

/-- A world in which every store call succeeds and every workload reports
one ready replica. -/
def exampleWorldOk : SimWorld :=
  { peersMap := .ok (some examplePeers)
    applyJaeger := .ok ()
    applyPrometheus := .ok ()
    applyOpentelemetry := .ok ()
    jaegerStatus := .ok (some { ready_replicas := some 1 })
    promStatus := .ok (some { ready_replicas := some 1 })
    otelStatus := .ok (some { ready_replicas := some 1 })
    applyRedis := .ok ()
    redisStatus := .ok (some { ready_replicas := some 1 })
    applyManager := .ok ()
    managerJobStatus := .ok (some { ready := some 1 })
    applyWorker := fun _ => .ok ()
    patchStatus := .ok () }

/-- `exampleWorldOk` with the peers config-map GET failing. -/
def exampleWorldErr : SimWorld := { exampleWorldOk with peersMap := .error "boom" }

/-- `exampleWorldOk` with the telemetry collector reporting zero ready
replicas. -/
def exampleWorldOtelDown : SimWorld :=
  { exampleWorldOk with otelStatus := .ok (some { ready_replicas := some 0 }) }

/-- C9: every error aborts the pass and is mapped by `on_error` to a fixed
5-second requeue, and every action a pass returns — at a readiness gate or
at completion — is a 10-second requeue. -/
theorem simulation_requeue_policy (sim : SimulationState) (w : SimWorld)
    (evs : List SimEvent) (res : Option (Except StoreErr Action))
    (h : simulationReconcile sim w = (evs, res)) :
    (∀ e, res = some (.error e) → onError e = .requeue 5)
    ∧ (∀ a, res = some (.ok a) → a = .requeue 10) := by
  refine ⟨fun e _ => rfl, fun a ha => ?_⟩
  subst ha
  unfold simulationReconcile at h
  repeat' split at h
  all_goals try simp_all
  all_goals split at h
  all_goals simp_all

/-- Witness for C9: a pass whose first store call fails yields an error that
`on_error` turns into a 5-second requeue, and an all-healthy pass returns a
10-second requeue. -/
theorem simulation_requeue_policy_witness :
    onError "boom" = .requeue 5 ∧ Action.requeue 10 = .requeue 10 :=
  ⟨(simulation_requeue_policy exampleSim exampleWorldErr
      (simulationReconcile exampleSim exampleWorldErr).1
      (simulationReconcile exampleSim exampleWorldErr).2 rfl).1 "boom" rfl,
   (simulation_requeue_policy exampleSim exampleWorldOk
      (simulationReconcile exampleSim exampleWorldOk).1
      (simulationReconcile exampleSim exampleWorldOk).2 rfl).2 (.requeue 10) rfl⟩

/-- Whether an event applies one of the queue (redis) or manager resources. -/
def isQueueOrManagerEvent : SimEvent → Bool
  | .applyService name => name == "redis" || name == MANAGER_SERVICE_NAME
  | .applyStatefulSet name => name == "redis"
  | .applyManagerJob _ _ => true
  | _ => false

/-- C4: while the observability readiness check reports false, the pass
requeues after 10 seconds and its trace contains no queue (redis) or
manager apply; once it reports true, a pass that returns an action has
applied the queue resources, and the manager resources as well once the
queue readiness check also reports true. -/
theorem monitoring_gate (sim : SimulationState) (w : SimWorld)
    (evs : List SimEvent) (res : Option (Except StoreErr Action))
    (h : simulationReconcile sim w = (evs, res)) :
    (monitoringReady w = .ok false →
      (∀ a, res = some (.ok a) → a = .requeue 10)
      ∧ (∀ ev ∈ evs, isQueueOrManagerEvent ev = false))
    ∧ (monitoringReady w = .ok true → ∀ a, res = some (.ok a) →
        .applyService "redis" ∈ evs ∧ .applyStatefulSet "redis" ∈ evs
        ∧ (redisReady w = .ok true →
            .applyManagerJob MANAGER_JOB_NAME (managerConfigOf sim) ∈ evs)) := by
  unfold simulationReconcile at h
  repeat' split at h
  all_goals try (simp only [] at h)
  all_goals try (split at h)
  all_goals injection h with h1 h2
  all_goals subst h1
  all_goals subst h2
  all_goals refine ⟨fun hmon => ⟨fun a ha => ?_, fun ev hev => ?_⟩, fun hmon a ha => ?_⟩
  all_goals try simp_all [applyJaegerEvents, applyPrometheusEvents,
    applyOpentelemetryEvents, applyRedisEvents, applyManagerEvents,
    isQueueOrManagerEvent, MANAGER_SERVICE_NAME, JAEGER_SERVICE_NAME,
    OTEL_SERVICE_NAME, OTEL_ACCOUNT, OTEL_CR, OTEL_CR_BINDING,
    OTEL_CONFIG_MAP_NAME, PROM_CONFIG_MAP_NAME]
  all_goals first
    | (rcases hev with rfl | rfl <;> rfl)
    | (rcases hev with rfl | rfl | rfl | rfl <;> rfl)
    | (rcases hev with rfl | rfl | rfl | rfl | rfl | rfl | rfl | rfl | rfl | rfl <;> rfl)

/-- Witness for C4: with the telemetry collector reporting zero ready
replicas, the pass returns a 10-second requeue and its trace contains no
queue or manager apply. -/
theorem monitoring_gate_witness :
    Action.requeue 10 = Action.requeue 10
    ∧ (∀ ev ∈ (simulationReconcile exampleSim exampleWorldOtelDown).1,
        isQueueOrManagerEvent ev = false) := by
  have h := monitoring_gate exampleSim exampleWorldOtelDown
    (simulationReconcile exampleSim exampleWorldOtelDown).1
    (simulationReconcile exampleSim exampleWorldOtelDown).2 rfl
  have h1 := h.1 rfl
  exact ⟨h1.1 (.requeue 10) rfl, h1.2⟩

/-- The worker fan-out never emits a status patch. -/
@[simp]
theorem patchStatus_not_mem_workers (w : SimWorld) (scenario : String)
    (nonce : Nat) (jic : JobImageConfig) (l : List Nat) (s : SimulationStatus) :
    SimEvent.patchStatus s ∉ (applyNWorkersLoop w scenario nonce jic l).1 := by
  intro hmem
  obtain ⟨i, hi⟩ := applyNWorkersLoop_events w scenario nonce jic l _ hmem
  simp [mkWorkerEvent] at hi

/-- The worker fan-out (over a peer count) never emits a status patch. -/
@[simp]
theorem patchStatus_not_mem_applyNWorkers (w : SimWorld) (scenario : String)
    (nonce : Nat) (jic : JobImageConfig) (peers : Nat) (s : SimulationStatus) :
    SimEvent.patchStatus s ∉ (applyNWorkers w scenario nonce jic peers).1 :=
  patchStatus_not_mem_workers w scenario nonce jic (List.range peers) s

/-- C8: the pass uses the loaded status unchanged when one exists and draws
the random nonce only when none exists; every status patch the pass issues
carries exactly that status (so the nonce is held stable), and a pass that
passes both readiness gates and returns an action has issued the status
patch. -/
theorem simulation_nonce_stable (sim : SimulationState) (w : SimWorld)
    (evs : List SimEvent) (res : Option (Except StoreErr Action))
    (h : simulationReconcile sim w = (evs, res)) :
    (∀ st, sim.status = some st → sim.loadedStatus = st)
    ∧ (sim.status = none → sim.loadedStatus = { nonce := sim.freshNonce })
    ∧ (∀ s, SimEvent.patchStatus s ∈ evs → s = sim.loadedStatus)
    ∧ (∀ a, res = some (.ok a) → monitoringReady w = .ok true →
        redisReady w = .ok true →
        SimEvent.patchStatus sim.loadedStatus ∈ evs) := by
  unfold simulationReconcile at h
  repeat' split at h
  all_goals try (simp only [] at h)
  all_goals try (split at h)
  all_goals injection h with h1 h2
  all_goals subst h1
  all_goals subst h2
  all_goals refine ⟨fun st hst => by simp [SimulationState.loadedStatus, hst],
    fun hst => by simp [SimulationState.loadedStatus, hst],
    fun s hs => ?_, fun a ha hmon hredis => ?_⟩
  all_goals simp_all [applyJaegerEvents, applyPrometheusEvents,
    applyOpentelemetryEvents, applyRedisEvents, applyManagerEvents]

/-- Witness for C8: starting from an existing status with nonce 42, an
all-healthy pass patches back exactly that status. -/
theorem simulation_nonce_stable_witness :
    exampleSim.loadedStatus = { nonce := 42 }
    ∧ SimEvent.patchStatus exampleSim.loadedStatus ∈
        (simulationReconcile exampleSim exampleWorldOk).1 := by
  have h := simulation_nonce_stable exampleSim exampleWorldOk
    (simulationReconcile exampleSim exampleWorldOk).1
    (simulationReconcile exampleSim exampleWorldOk).2 rfl
  exact ⟨h.1 { nonce := 42 } rfl, h.2.2.2 (.requeue 10) rfl rfl rfl⟩

/-- The worker-job applies of a trace, as pairs of job name and target peer
index. -/
def workerTargets (evs : List SimEvent) : List (String × Nat) :=
  evs.filterMap fun ev =>
    match ev with
    | .applyWorkerJob name config => some (name, config.target_peer)
    | _ => none

/-- The worker targets of a fully successful fan-out over a list of
indices. -/
@[simp]
theorem workerTargets_map_mkWorkerEvent (scenario : String) (nonce : Nat)
    (jic : JobImageConfig) (l : List Nat) :
    workerTargets (l.map (mkWorkerEvent scenario nonce jic)) =
      l.map fun i => (WORKER_JOB_NAME ++ "-" ++ toString i, i) := by
  induction l with
  | nil => rfl
  | cons i rest ih => simp [workerTargets, mkWorkerEvent] at ih ⊢; exact ih

/-- `workerTargets` distributes over list append. -/
@[simp]
theorem workerTargets_append (l₁ l₂ : List SimEvent) :
    workerTargets (l₁ ++ l₂) = workerTargets l₁ ++ workerTargets l₂ := by
  simp [workerTargets]

/-- The tracing applies carry no worker targets. -/
@[simp]
theorem workerTargets_jaeger : workerTargets applyJaegerEvents = [] := rfl

/-- The metrics applies carry no worker targets. -/
@[simp]
theorem workerTargets_prometheus : workerTargets applyPrometheusEvents = [] := rfl

/-- The telemetry-collector applies carry no worker targets. -/
@[simp]
theorem workerTargets_opentelemetry : workerTargets applyOpentelemetryEvents = [] := rfl

/-- The queue applies carry no worker targets. -/
@[simp]
theorem workerTargets_redis : workerTargets applyRedisEvents = [] := rfl

/-- The manager applies carry no worker targets. -/
@[simp]
theorem workerTargets_manager (c : ManagerConfig) :
    workerTargets (applyManagerEvents c) = [] := rfl

/-- A status patch carries no worker targets. -/
@[simp]
theorem workerTargets_patch (s : SimulationStatus) :
    workerTargets [SimEvent.patchStatus s] = [] := rfl

/-- A fully successful fan-out over a peer count applies exactly the worker
jobs for indices `0..peers-1`, in order. -/
theorem applyNWorkers_ok (w : SimWorld) (scenario : String) (nonce : Nat)
    (jic : JobImageConfig) (peers : Nat) (u : Unit)
    (h : (applyNWorkers w scenario nonce jic peers).2 = .ok u) :
    (applyNWorkers w scenario nonce jic peers).1 =
      (List.range peers).map (mkWorkerEvent scenario nonce jic) :=
  applyNWorkersLoop_ok w scenario nonce jic (List.range peers) h

/-- C3: a pass that passes both readiness gates, returns an action, and saw
a ready manager applies exactly one worker job per Ceramic-kind registry
entry, named `simulate-worker-<i>` with target peer indices `0..n-1` where
`n` counts only the Ceramic-kind entries. -/
theorem worker_fan_out (sim : SimulationState) (w : SimWorld)
    (evs : List SimEvent) (res : Option (Except StoreErr Action))
    (peers : List Peer) (js : JobStatus)
    (hpeers : w.peersMap = .ok (some peers))
    (hmgr : w.managerJobStatus = .ok (some js))
    (hready : js.ready.getD 0 > 0)
    (hmon : monitoringReady w = .ok true)
    (hredis : redisReady w = .ok true)
    (h : simulationReconcile sim w = (evs, res))
    (a : Action) (hres : res = some (.ok a)) :
    workerTargets evs =
      (List.range (numCeramicPeers peers)).map
        fun i => (WORKER_JOB_NAME ++ "-" ++ toString i, i) := by
  subst hres
  unfold simulationReconcile at h
  repeat' split at h
  all_goals try (simp only [] at h)
  all_goals try (split at h)
  all_goals injection h with h1 h2
  all_goals subst h1
  all_goals try simp_all
  all_goals rw [applyNWorkers_ok _ _ _ _ _ _ (by assumption)]
  all_goals simp

/-- Witness for C3: the example registry with three Ceramic-kind and two
non-Ceramic entries yields exactly three worker jobs, with target indices
0, 1, 2. -/
theorem worker_fan_out_witness :
    workerTargets (simulationReconcile exampleSim exampleWorldOk).1 =
      [(WORKER_JOB_NAME ++ "-" ++ toString 0, 0),
       (WORKER_JOB_NAME ++ "-" ++ toString 1, 1),
       (WORKER_JOB_NAME ++ "-" ++ toString 2, 2)] := by
  have h := worker_fan_out exampleSim exampleWorldOk
    (simulationReconcile exampleSim exampleWorldOk).1
    (simulationReconcile exampleSim exampleWorldOk).2
    examplePeers { ready := some 1 } rfl rfl (by decide) rfl rfl rfl
    (.requeue 10) rfl
  rw [h]
  rfl

/-! ## Network control loop ordering: stale-peer cleanup

The network reconciler itself (`network/controller.rs`) is not under
`src/`; its peer-object diffing step is modelled from the spec (§4.3 steps
4-5).  The test harness `network/stub.rs`, which is under `src/`, encodes
the expected request order of a reconcile pass; its `_run` sequence is
embedded below, and all ceramic deletes precede all ceramic applies in it. -/

/-- One expected request handled by the network test stub, labelled by the
expect-file it is checked against. -/
inductive StubEvent where
  | deleteNetwork (label : String)
  | applyNamespace
  | casApply (label : String)
  | adminSecretLookup
  | adminSourceLookup (label : String)
  | adminSecretCreate (label : String)
  | ceramicDelete (label : String)
  | ceramicConfigMapApply (label : String)
  | ceramicServiceApply (label : String)
  | ceramicStatefulSetApply (label : String)
  | podStatusLookup (label : String)
  | peersConfigMapApply
  | bootstrapJob (label : String)
  | statusPatch
  deriving DecidableEq, Repr

/-- `CeramicStub` (`network/stub.rs` lines 80-85): the expected config
maps, service and stateful set of one ceramic variant. -/
structure CeramicStub where
  configmaps : List String
  service : String
  stateful_set : String
  deriving DecidableEq, Repr

/-- `Stub` (`network/stub.rs` lines 53-78), reduced to the shape of its
expected-request sequence: whether the pass is a deletion, whether the CAS
block runs (`postgres_auth_secret.2`), the optional admin-secret source
step (with its early-error flag, `ceramic_admin_secret_source`), the
optional admin-secret creation step, and the lists of ceramic deletes,
ceramic applies, pod status lookups and bootstrap jobs. -/
structure NetStub where
  delete : Option String
  casEnabled : Bool
  adminSecretSource : Option (String × Bool)
  adminSecret : Option String
  ceramicDeletes : List String
  ceramics : List CeramicStub
  podStatuses : List String
  bootstrapJobs : List String
  deriving DecidableEq, Repr

/-- The CAS-related expected requests (`network/stub.rs` lines 209-257), in
order. -/
def casEvents : List StubEvent :=
  [.casApply "postgres_auth_secret", .casApply "cas_service",
   .casApply "cas_ipfs_service", .casApply "ganache_service",
   .casApply "cas_postgres_service", .casApply "localstack_service",
   .casApply "cas_stateful_set", .casApply "cas_ipfs_stateful_set",
   .casApply "ganache_stateful_set", .casApply "cas_postgres_stateful_set",
   .casApply "localstack_stateful_set"]

/-- The expected applies of one ceramic variant (`network/stub.rs` lines
287-302): its config maps, then its service, then its stateful set. -/
def ceramicApplyEvents (c : CeramicStub) : List StubEvent :=
  (c.configmaps.map .ceramicConfigMapApply) ++
    [.ceramicServiceApply c.service, .ceramicStatefulSetApply c.stateful_set]

/-- The expected requests up to the admin-secret lookup (`network/stub.rs`
lines 204-264): namespace apply, the optional CAS block, and the
admin-secret lookup. -/
def adminPre (s : NetStub) : List StubEvent :=
  StubEvent.applyNamespace ::
    ((if s.casEnabled then casEvents else []) ++ [.adminSecretLookup])

/-- The expected requests through admin-secret resolution on the non-error
path (`network/stub.rs` lines 204-280). -/
def adminResolved (s : NetStub) : List StubEvent :=
  adminPre s ++
    (match s.adminSecretSource with
     | some (label, _) => [.adminSourceLookup label]
     | none => []) ++
    (match s.adminSecret with
     | some label => [.adminSecretCreate label]
     | none => [])

/-- `Stub::_run` (`network/stub.rs` lines 193-323): the expected request
sequence of one network reconcile pass — early return on deletion; then
namespace, optional CAS block, admin secret resolution (with an early
return on the error case), all ceramic deletes, all ceramic applies, pod
statuses, the peers config map, bootstrap jobs, and the status patch. -/
def stubRunTrace (s : NetStub) : List StubEvent :=
  match s.delete with
  | some label => [.deleteNetwork label]
  | none =>
    match s.adminSecretSource with
    | some (label, true) => adminPre s ++ [.adminSourceLookup label]
    | _ =>
      adminResolved s
        ++ (s.ceramicDeletes.map .ceramicDelete)
        ++ (s.ceramics.flatMap ceramicApplyEvents)
        ++ (s.podStatuses.map .podStatusLookup)
        ++ [.peersConfigMapApply]
        ++ (s.bootstrapJobs.map .bootstrapJob)
        ++ [.statusPatch]

/-- Whether a stub event is a ceramic (peer-object) delete. -/
def isCeramicDelete : StubEvent → Bool
  | .ceramicDelete _ => true
  | _ => false

/-- Whether a stub event is a ceramic (peer-object) apply. -/
def isCeramicApply : StubEvent → Bool
  | .ceramicConfigMapApply _ => true
  | .ceramicServiceApply _ => true
  | .ceramicStatefulSetApply _ => true
  | _ => false

/-- Every event satisfying `p` occurs strictly before every event
satisfying `q`. -/
def eventsPrecede (p q : α → Bool) (l : List α) : Prop :=
  ∀ i j (hi : i < l.length) (hj : j < l.length),
    p (l.get ⟨i, hi⟩) = true → q (l.get ⟨j, hj⟩) = true → i < j

/-- In a concatenation whose first part has no `q`-events and whose second
part has no `p`-events, every `p`-event precedes every `q`-event. -/
theorem eventsPrecede_append (p q : α → Bool) (xs ys : List α)
    (hxs : ∀ x ∈ xs, q x = false) (hys : ∀ y ∈ ys, p y = false) :
    eventsPrecede p q (xs ++ ys) := by
  intro i j hi hj hp hq
  have hjge : xs.length ≤ j := by
    by_contra hlt
    push_neg at hlt
    have : (xs ++ ys).get ⟨j, hj⟩ = xs.get ⟨j, hlt⟩ := by
      simp [List.getElem_append, hlt]
    rw [this] at hq
    have := hxs _ (xs.get_mem j hlt)
    rw [this] at hq
    exact Bool.false_ne_true hq
  have hilt : i < xs.length := by
    by_contra hge
    push_neg at hge
    have hsub : i - xs.length < ys.length := by
      have := hi
      rw [List.length_append] at this
      omega
    have : (xs ++ ys).get ⟨i, hi⟩ = ys.get ⟨i - xs.length, hsub⟩ := by
      simp [List.getElem_append, Nat.not_lt.mpr hge]
    rw [this] at hp
    have := hys _ (ys.get_mem (i - xs.length) hsub)
    rw [this] at hp
    exact Bool.false_ne_true hp
  omega

/-- If no event satisfies `p`, the precedence holds vacuously. -/
theorem eventsPrecede_of_no_p (p q : α → Bool) (l : List α)
    (h : ∀ x ∈ l, p x = false) : eventsPrecede p q l := by
  intro i j hi hj hp _
  have := h _ (l.get_mem i hi)
  rw [this] at hp
  exact absurd hp (by simp)

/-- The requests before the ceramic deletes are neither ceramic deletes nor
ceramic applies. -/
theorem adminPre_no_ceramic (s : NetStub) :
    ∀ x ∈ adminPre s, isCeramicDelete x = false ∧ isCeramicApply x = false := by
  intro x hx
  unfold adminPre at hx
  rcases List.mem_cons.mp hx with rfl | hx
  · exact ⟨rfl, rfl⟩
  rcases List.mem_append.mp hx with hx | hx
  · cases hcas : s.casEnabled with
    | false => simp [hcas] at hx
    | true =>
      simp [hcas, casEvents] at hx
      rcases hx with rfl | rfl | rfl | rfl | rfl | rfl | rfl | rfl | rfl | rfl | rfl <;>
        exact ⟨rfl, rfl⟩
  · simp at hx
    subst hx
    exact ⟨rfl, rfl⟩

/-- The admin-secret resolution requests are neither ceramic deletes nor
ceramic applies. -/
theorem adminResolved_no_ceramic (s : NetStub) :
    ∀ x ∈ adminResolved s, isCeramicDelete x = false ∧ isCeramicApply x = false := by
  intro x hx
  unfold adminResolved at hx
  rcases List.mem_append.mp hx with hx | hx
  · rcases List.mem_append.mp hx with hx | hx
    · exact adminPre_no_ceramic s x hx
    · cases hsrc : s.adminSecretSource with
      | none => simp [hsrc] at hx
      | some lp =>
        obtain ⟨label, flag⟩ := lp
        simp [hsrc] at hx
        subst hx
        exact ⟨rfl, rfl⟩
  · cases hsec : s.adminSecret with
    | none => simp [hsec] at hx
    | some label =>
      simp [hsec] at hx
      subst hx
      exact ⟨rfl, rfl⟩

/-- On the main (non-early-return) path of `Stub::_run`, every ceramic
delete precedes every ceramic apply. -/
theorem stubRunTrace_main_case (s : NetStub) :
    eventsPrecede isCeramicDelete isCeramicApply
      (adminResolved s
        ++ (s.ceramicDeletes.map .ceramicDelete)
        ++ (s.ceramics.flatMap ceramicApplyEvents)
        ++ (s.podStatuses.map .podStatusLookup)
        ++ [.peersConfigMapApply]
        ++ (s.bootstrapJobs.map .bootstrapJob)
        ++ [.statusPatch]) := by
  have hsplit :
      adminResolved s ++ (s.ceramicDeletes.map StubEvent.ceramicDelete)
        ++ (s.ceramics.flatMap ceramicApplyEvents)
        ++ (s.podStatuses.map StubEvent.podStatusLookup)
        ++ [StubEvent.peersConfigMapApply]
        ++ (s.bootstrapJobs.map StubEvent.bootstrapJob)
        ++ [StubEvent.statusPatch]
      = (adminResolved s ++ (s.ceramicDeletes.map StubEvent.ceramicDelete))
        ++ ((s.ceramics.flatMap ceramicApplyEvents)
          ++ ((s.podStatuses.map StubEvent.podStatusLookup)
            ++ ([StubEvent.peersConfigMapApply]
              ++ ((s.bootstrapJobs.map StubEvent.bootstrapJob)
                ++ [StubEvent.statusPatch])))) := by
    simp [List.append_assoc]
  rw [hsplit]
  apply eventsPrecede_append
  · intro x hx
    rcases List.mem_append.mp hx with hx | hx
    · exact (adminResolved_no_ceramic s x hx).2
    · obtain ⟨i, _, rfl⟩ := List.mem_map.mp hx
      rfl
  · intro y hy
    rcases List.mem_append.mp hy with hy | hy
    · obtain ⟨c, _, hy⟩ := List.mem_flatMap.mp hy
      unfold ceramicApplyEvents at hy
      rcases List.mem_append.mp hy with hy | hy
      · obtain ⟨m, _, rfl⟩ := List.mem_map.mp hy
        rfl
      · rcases List.mem_cons.mp hy with rfl | hy
        · rfl
        · simp at hy
          subst hy
          rfl
    rcases List.mem_append.mp hy with hy | hy
    · obtain ⟨m, _, rfl⟩ := List.mem_map.mp hy
      rfl
    rcases List.mem_append.mp hy with hy | hy
    · simp at hy
      subst hy
      rfl
    rcases List.mem_append.mp hy with hy | hy
    · obtain ⟨m, _, rfl⟩ := List.mem_map.mp hy
      rfl
    · simp at hy
      subst hy
      rfl

/-- In the expected request sequence of `Stub::_run`, every ceramic
peer-object delete precedes every ceramic peer-object apply. -/
theorem stubRunTrace_deletes_precede_applies (s : NetStub) :
    eventsPrecede isCeramicDelete isCeramicApply (stubRunTrace s) := by
  unfold stubRunTrace
  cases hdel : s.delete with
  | some label =>
    apply eventsPrecede_of_no_p
    intro x hx
    simp at hx
    subst hx
    rfl
  | none =>
    cases hsrc : s.adminSecretSource with
    | some lp =>
      obtain ⟨label, flag⟩ := lp
      cases flag with
      | true =>
        apply eventsPrecede_of_no_p
        intro x hx
        rcases List.mem_append.mp hx with hx | hx
        · exact (adminPre_no_ceramic s x hx).1
        · simp at hx
          subst hx
          rfl
      | false =>
        exact stubRunTrace_main_case s
    | none =>
      exact stubRunTrace_main_case s

/-- A mutating call of the network reconciler's peer-object diffing step,
identified by peer index. -/
inductive NetEvent where
  | deletePeer (idx : Nat)
  | applyPeer (idx : Nat)
  deriving DecidableEq, Repr

/-- Modelled from the spec: the network reconciler (`network/controller.rs`)
is not under `src/`; per spec §4.3 steps 4-5, a pass with `live` existing
peer objects and `desired < live` new desired count deletes the peer
objects at indices `desired..live-1` before applying the surviving indices
`0..desired-1`.  The test stub `Stub::_run` (which is under `src/`) checks
exactly this order: all ceramic deletes are handled before any ceramic
apply (`stubRunTrace_deletes_precede_applies`). -/
def reconcilePeers (live desired : Nat) : List NetEvent :=
  ((List.range' desired (live - desired)).map NetEvent.deletePeer)
    ++ ((List.range desired).map NetEvent.applyPeer)

/-- Whether a peer-diff event is a delete. -/
def isDeletePeer : NetEvent → Bool
  | .deletePeer _ => true
  | .applyPeer _ => false

/-- Whether a peer-diff event is an apply. -/
def isApplyPeer : NetEvent → Bool
  | .deletePeer _ => false
  | .applyPeer _ => true

/-- C2: reducing the desired peer-object count from `live` to
`desired < live` deletes exactly the indices in `[desired, live)` and
applies exactly the surviving indices `[0, desired)`, with every delete
issued before any apply; the expected request order encoded by the network
test stub agrees — all ceramic deletes precede all ceramic applies. -/
theorem stale_peer_cleanup (live desired : Nat) (hlt : desired < live)
    (s : NetStub) :
    (∀ i, NetEvent.deletePeer i ∈ reconcilePeers live desired ↔
      desired ≤ i ∧ i < live)
    ∧ (∀ i, NetEvent.applyPeer i ∈ reconcilePeers live desired ↔ i < desired)
    ∧ eventsPrecede isDeletePeer isApplyPeer (reconcilePeers live desired)
    ∧ eventsPrecede isCeramicDelete isCeramicApply (stubRunTrace s) := by
  refine ⟨fun i => ?_, fun i => ?_, ?_, stubRunTrace_deletes_precede_applies s⟩
  · unfold reconcilePeers
    simp only [List.mem_append, List.mem_map, List.mem_range'_1, List.mem_range]
    constructor
    · rintro (⟨a, ha, heq⟩ | ⟨a, _, heq⟩)
      · obtain rfl := (NetEvent.deletePeer.injEq _ _).mp heq.symm
        omega
      · exact absurd heq (by simp)
    · intro hi
      exact .inl ⟨i, by omega, rfl⟩
  · unfold reconcilePeers
    simp only [List.mem_append, List.mem_map, List.mem_range'_1, List.mem_range]
    constructor
    · rintro (⟨a, _, heq⟩ | ⟨a, ha, heq⟩)
      · exact absurd heq (by simp)
      · obtain rfl := (NetEvent.applyPeer.injEq _ _).mp heq.symm
        omega
    · intro hi
      exact .inr ⟨i, hi, rfl⟩
  · apply eventsPrecede_append
    · intro x hx
      obtain ⟨a, _, rfl⟩ := List.mem_map.mp hx
      rfl
    · intro y hy
      obtain ⟨a, _, rfl⟩ := List.mem_map.mp hy
      rfl

/-- A concrete network stub on the main path, with one stale peer-object
delete pair and one surviving ceramic variant. -/
def exampleNetStub : NetStub :=
  { delete := none
    casEnabled := true
    adminSecretSource := none
    adminSecret := some "ceramic_admin_secret"
    ceramicDeletes := ["delete_ceramic_ss_1", "delete_ceramic_svc_1"]
    ceramics := [{ configmaps := ["ceramic_init_configmap"],
                   service := "ceramic_service",
                   stateful_set := "ceramic_stateful_set" }]
    podStatuses := []
    bootstrapJobs := [] }

/-- Witness for C2 at `live = 3`, `desired = 1` and the example stub. -/
theorem stale_peer_cleanup_witness :
    (NetEvent.deletePeer 1 ∈ reconcilePeers 3 1 ↔ 1 ≤ 1 ∧ 1 < 3)
    ∧ eventsPrecede isCeramicDelete isCeramicApply (stubRunTrace exampleNetStub) := by
  have h := stale_peer_cleanup 3 1 (by decide) exampleNetStub
  exact ⟨h.1 1, h.2.2.2⟩

end Keramik
